import Mathlib

/-!
Verification of the planer task tracker (Django web views + aiogram Telegram
bot sharing one `Task` table).  The definitions below are a shallow embedding
of `tasks/models.py`, `tasks/views.py` and `bot/bot.py`:
pure functions mirror the Python functions, the database is a `List Task`,
`datetime` objects are calendar records with an optional UTC offset, and the
outbound Telegram send is an oracle `ok : Int → Bool` telling, per task id,
whether `bot.send_message` would succeed or raise.
-/

namespace Planer

/-- Task status, the four values of `Task.STATUS_CHOICES` in `tasks/models.py`. -/
inductive Status
  | new
  | in_progress
  | done
  | overdue
deriving DecidableEq

/-- Model of a Python `datetime`: wall-clock calendar fields plus an optional
UTC offset in minutes.  `tzOffset = none` models a naive datetime
(`timezone.is_naive` is true), `tzOffset = some o` an aware one. -/
structure PyDateTime where
  year : Nat
  month : Nat
  day : Nat
  hour : Nat
  minute : Nat
  tzOffset : Option Int
deriving DecidableEq

/-- Gregorian leap-year rule, as used by Python's `calendar`/`datetime`. -/
def isLeap (y : Nat) : Bool :=
  y % 4 == 0 && (y % 100 != 0 || y % 400 == 0)

/-- Number of days of month `m` in year `y` (Python `calendar.monthrange`). -/
def daysInMonth (y m : Nat) : Nat :=
  if m = 2 then (if isLeap y then 29 else 28)
  else if m = 4 || m = 6 || m = 9 || m = 11 then 30
  else 31

/-- Days in year `y` strictly before the first day of month `m`. -/
def daysBeforeMonth (y m : Nat) : Nat :=
  (List.range (m - 1)).foldl (fun acc i => acc + daysInMonth y (i + 1)) 0

/-- Days strictly before January 1 of year `y` in the proleptic Gregorian
calendar (Python `date.toordinal` minus one). -/
def daysBeforeYear (y : Nat) : Nat :=
  365 * (y - 1) + (y - 1) / 4 + (y - 1) / 400 - (y - 1) / 100

/-- Proleptic-Gregorian ordinal day of a `PyDateTime` (0 = 0001-01-01). -/
def PyDateTime.ordinalDay (dt : PyDateTime) : Nat :=
  daysBeforeYear dt.year + daysBeforeMonth dt.year dt.month + (dt.day - 1)

/-- Absolute minutes of a `PyDateTime` on the UTC timeline; this is how Python
compares two aware datetimes (wall clock minus UTC offset).  Naive datetimes
are given offset 0; the embedded code only ever compares aware values. -/
def PyDateTime.absMinutes (dt : PyDateTime) : Int :=
  ((dt.ordinalDay * 1440 + dt.hour * 60 + dt.minute : Nat) : Int) - dt.tzOffset.getD 0

/-- Chronological `a <= b` on datetimes (Python `a <= b`, i.e. `b >= a`). -/
def PyDateTime.le (a b : PyDateTime) : Bool :=
  a.absMinutes ≤ b.absMinutes

/-- Django `timezone.make_aware` with the configured local timezone, modelled
as a fixed UTC offset `off` in minutes: the wall-clock fields are kept and the
local offset is attached. -/
def make_aware (off : Int) (d : PyDateTime) : PyDateTime :=
  { d with tzOffset := some off }

/-- The `Task` row of `tasks/models.py` (the immutable `created_at` column is
dropped: no embedded operation reads it). -/
structure Task where
  id : Int
  title : String
  description : String
  status : Status
  due_date : Option PyDateTime
deriving DecidableEq

/-- `Task.save` from `tasks/models.py`: a naive `due_date` is normalized to
the configured local timezone (offset `off`) before the row is persisted;
every write path of the program goes through this method. -/
def Task.save (off : Int) (t : Task) : Task :=
  match t.due_date with
  | some d => if d.tzOffset = none then { t with due_date := some (make_aware off d) } else t
  | none => t

/-- `create_task` from `bot/bot.py` (and `Task.objects.create` in
`tasks/views.py`, whose status defaults to `new`): build the row with status
`new` and persist it through `Task.save`.  `i` is the id the database assigns. -/
def create_task (off : Int) (i : Int) (title description : String)
    (due_date : Option PyDateTime) : Task :=
  Task.save off { id := i, title := title, description := description,
                  status := Status.new, due_date := due_date }

/-- Insert a freshly created task into the store; per `Meta.ordering =
['-created_at']` the newest row comes first when listing. -/
def store_create (off : Int) (store : List Task) (i : Int)
    (title description : String) (due_date : Option PyDateTime) : List Task :=
  create_task off i title description due_date :: store

/-- `Task.objects.get(id=i)` returning `none` for `DoesNotExist`
(`get_task_by_id` in `bot/bot.py`). -/
def findById (store : List Task) (i : Int) : Option Task :=
  store.find? (fun t => t.id == i)

/-- `delete_task_by_id` from `bot/bot.py`: delete the row if it exists and
report whether one existed. -/
def delete_task_by_id (store : List Task) (i : Int) : List Task × Bool :=
  if store.any (fun t => t.id == i) then
    (store.filter (fun t => !(t.id == i)), true)
  else (store, false)

/-- The row update `task.status = 'overdue'` followed by `task.save()`. -/
def setOverdue (off : Int) (t : Task) : Task :=
  Task.save off { t with status := Status.overdue }

/-- `mark_task_overdue` from `bot/bot.py`: look the task up by id, set its
status to `overdue` and persist through `Task.save`; report `false` when the
id does not exist (`DoesNotExist`). -/
def mark_task_overdue (off : Int) (store : List Task) (i : Int) : List Task × Bool :=
  if store.any (fun t => t.id == i) then
    (store.map (fun t => if t.id == i then setOverdue off t else t), true)
  else (store, false)

/-- The filter of `get_pending_tasks_with_deadline` in `bot/bot.py`:
`due_date__isnull=False, status__in=['new', 'in_progress']`. -/
def pendingPred (t : Task) : Bool :=
  t.due_date.isSome && (t.status == Status.new || t.status == Status.in_progress)

/-- `get_pending_tasks_with_deadline` from `bot/bot.py`. -/
def get_pending_tasks_with_deadline (store : List Task) : List Task :=
  store.filter pendingPred

/-- Truthiness of `task.due_date` followed by `now >= task.due_date`
inside the `check_deadlines` loop. -/
def dueLeNow (now : PyDateTime) (t : Task) : Bool :=
  match t.due_date with
  | some d => d.le now
  | none => false

/-- The per-task condition of the `check_deadlines` loop in `bot/bot.py`:
`task.due_date and now >= task.due_date and task.status not in ['done', 'overdue']`. -/
def loopSel (now : PyDateTime) (t : Task) : Bool :=
  t.due_date.isSome && dueLeNow now t
    && !(t.status == Status.done) && !(t.status == Status.overdue)

/-- A task is selected by a sweep tick when it passes both the database
filter of `get_pending_tasks_with_deadline` and the loop condition of
`check_deadlines`. -/
def sweepSelects (now : PyDateTime) (t : Task) : Bool :=
  pendingPred t && loopSel now t

/-- The loop body of `check_deadlines` in `bot/bot.py`, iterating over the
pending snapshot while threading the store and the list of task ids for which
a `bot.send_message` attempt was made.  `if YOUR_CHAT_ID:` guards the send;
`ok t.id` tells whether the send succeeds (then `mark_task_overdue` runs) or
raises (then the `except` branch only logs and the loop continues). -/
def check_deadlines_go (off chatId : Int) (ok : Int → Bool) (now : PyDateTime) :
    List Task → List Task → List Int → List Task × List Int
  | [], store, attempts => (store, attempts)
  | t :: rest, store, attempts =>
    if loopSel now t then
      if chatId ≠ 0 then
        if ok t.id then
          check_deadlines_go off chatId ok now rest
            (mark_task_overdue off store t.id).1 (attempts ++ [t.id])
        else
          check_deadlines_go off chatId ok now rest store (attempts ++ [t.id])
      else
        check_deadlines_go off chatId ok now rest store attempts
    else
      check_deadlines_go off chatId ok now rest store attempts

/-- One tick of `check_deadlines` from `bot/bot.py`: fetch the pending
snapshot, then run the loop.  Returns the updated store and the ids for which
a notification send was attempted. -/
def check_deadlines (off chatId : Int) (ok : Int → Bool) (now : PyDateTime)
    (store : List Task) : List Task × List Int :=
  check_deadlines_go off chatId ok now (get_pending_tasks_with_deadline store) store []

/-- The status mutation of `task_toggle` in `tasks/views.py`:
`new → in_progress`, `in_progress → done`, anything else → `new`. -/
def cycle_status : Status → Status
  | Status.new => Status.in_progress
  | Status.in_progress => Status.done
  | _ => Status.new

/-- `task_toggle` in `tasks/views.py`: advance the status and persist through
`Task.save`. -/
def task_toggle (off : Int) (t : Task) : Task :=
  Task.save off { t with status := cycle_status t.status }

/-- Numeric value of a decimal digit character. -/
def digitVal (c : Char) : Nat :=
  c.toNat - '0'.toNat

/-- Digit run as accepted by Python `int(str)` after the optional sign:
one or more decimal digits with single underscores allowed between digits. -/
def pyDigitRun : List Char → Bool
  | [] => true
  | '_' :: c :: rest => c.isDigit && pyDigitRun rest
  | c :: rest => c.isDigit && pyDigitRun rest

/-- Value of a digit run, ignoring the grouping underscores. -/
def digitsToNat (cs : List Char) : Nat :=
  (cs.filter (fun c => c != '_')).foldl (fun acc c => acc * 10 + digitVal c) 0

/-- Python `int(str)` on a character list: strip surrounding whitespace, read
an optional sign, then a digit run; `none` models the `ValueError` raised on
anything else. -/
def pyIntOfChars (s : List Char) : Option Int :=
  let cs := ((s.dropWhile Char.isWhitespace).reverse.dropWhile Char.isWhitespace).reverse
  let signed : Int × List Char :=
    match cs with
    | '-' :: rest => (-1, rest)
    | '+' :: rest => (1, rest)
    | _ => (1, cs)
  match signed.2 with
  | [] => none
  | c :: rest =>
    if c.isDigit && pyDigitRun rest then some (signed.1 * (digitsToNat (c :: rest) : Int))
    else none

/-- Python `int(str)` (the conversion used on callback-data suffixes). -/
def pyIntOfStr (s : String) : Option Int :=
  pyIntOfChars s.toList

/-- Python `callback.data.replace("delete_", "")`: remove every
non-overlapping occurrence of the 7-character marker, scanning left to right. -/
def stripDeleteAll : List Char → List Char
  | 'd' :: 'e' :: 'l' :: 'e' :: 't' :: 'e' :: '_' :: rest => stripDeleteAll rest
  | c :: rest => c :: stripDeleteAll rest
  | [] => []

/-- Outcome of the delete-button callback handler: `crash` models an
exception escaping the handler (no `try`/`except` around the `int` call). -/
inductive CallbackOutcome
  | deleted (title : String)
  | notFound
  | crash
deriving DecidableEq

/-- `delete_task_callback` from `bot/bot.py`:
`task_id = int(callback.data.replace("delete_", ""))`, then delete when the
task exists, otherwise answer "not found".  The `int` call is not guarded, so
a non-numeric remainder raises `ValueError` out of the handler (`crash`). -/
def delete_task_callback (store : List Task) (data : String) :
    CallbackOutcome × List Task :=
  match pyIntOfStr (String.mk (stripDeleteAll data.toList)) with
  | none => (CallbackOutcome.crash, store)
  | some i =>
    match findById store i with
    | some t => (CallbackOutcome.deleted t.title, (delete_task_by_id store i).1)
    | none => (CallbackOutcome.notFound, store)

/-- `YOUR_CHAT_ID = int(os.environ.get('TELEGRAM_CHAT_ID', '0') or 0)` in
`bot/bot.py`: an absent variable defaults to the string `'0'`; an empty
string is falsy, so `'' or 0` turns it into the integer `0`; any other string
goes through `int` (`none` models the `ValueError` crash at import time). -/
def chatIdFromEnv (v : Option String) : Option Int :=
  match v with
  | none => pyIntOfStr "0"
  | some s => if s = "" then some 0 else pyIntOfStr s

/-- Two-digit-or-one-digit numeric field of CPython `_strptime`.  The regular
expressions for `%d`, `%m`, `%H`, `%M` try their two-digit alternatives first
and fall back to a single digit; `valid2`/`valid1` encode the value ranges of
those alternatives.  (For this format string the regex never needs to
backtrack from a successful two-digit match, because the following literal is
never a digit.) -/
def parse2or1 (valid2 valid1 : Nat → Bool) : List Char → Option (Nat × List Char)
  | c1 :: c2 :: rest =>
    if c1.isDigit && c2.isDigit && valid2 (digitVal c1 * 10 + digitVal c2) then
      some (digitVal c1 * 10 + digitVal c2, rest)
    else if c1.isDigit && valid1 (digitVal c1) then
      some (digitVal c1, c2 :: rest)
    else none
  | [c1] =>
    if c1.isDigit && valid1 (digitVal c1) then some (digitVal c1, []) else none
  | [] => none

/-- Exactly four digits, the `%Y` field of CPython `_strptime`. -/
def parse4 : List Char → Option (Nat × List Char)
  | a :: b :: c :: d :: rest =>
    if a.isDigit && b.isDigit && c.isDigit && d.isDigit then
      some (((digitVal a * 10 + digitVal b) * 10 + digitVal c) * 10 + digitVal d, rest)
    else none
  | _ => none

/-- A literal character of the format string. -/
def expectChar (c : Char) : List Char → Option (List Char)
  | d :: rest => if d = c then some rest else none
  | [] => none

/-- Whitespace in a `strptime` format string matches one or more whitespace
characters of the input. -/
def expectSpace : List Char → Option (List Char)
  | c :: rest =>
    if c.isWhitespace then some (rest.dropWhile Char.isWhitespace) else none
  | [] => none

/-- `datetime.strptime(text, "%d.%m.%Y %H:%M")` from `bot/bot.py`
(`ДД.ММ.ГГГГ ЧЧ:ММ`): match the pattern over the whole string, then apply the
`datetime` constructor's calendar validation (year at least `MINYEAR`, day
within the month); `none` models the `ValueError`.  The result is naive. -/
def strptime_dmy_hm (s : String) : Option PyDateTime := do
  let cs := s.toList
  let (d, cs) ← parse2or1 (fun v => 1 ≤ v && v ≤ 31) (fun v => 1 ≤ v) cs
  let cs ← expectChar '.' cs
  let (m, cs) ← parse2or1 (fun v => 1 ≤ v && v ≤ 12) (fun v => 1 ≤ v) cs
  let cs ← expectChar '.' cs
  let (y, cs) ← parse4 cs
  let cs ← expectSpace cs
  let (hh, cs) ← parse2or1 (fun v => v ≤ 23) (fun _ => true) cs
  let cs ← expectChar ':' cs
  let (mm, cs) ← parse2or1 (fun v => v ≤ 59) (fun _ => true) cs
  match cs with
  | [] =>
    if 1 ≤ y && 1 ≤ d && d ≤ daysInMonth y m then
      some { year := y, month := m, day := d, hour := hh, minute := mm, tzOffset := none }
    else none
  | _ => none

/-- The `"❌ Отмена"` cancel button text of `bot/bot.py`. -/
def cancelKw : String := "❌ Отмена"

/-- The `"⏩ Пропустить"` skip button text of `bot/bot.py`. -/
def skipKw : String := "⏩ Пропустить"

/-- The `"➕ Новая задача"` menu button text of `bot/bot.py`. -/
def newTaskKw : String := "➕ Новая задача"

/-- The `"📋 Все задачи"` menu button text of `bot/bot.py`. -/
def allTasksKw : String := "📋 Все задачи"

/-- The `"🌐 Веб-интерфейс"` menu button text of `bot/bot.py`. -/
def webKw : String := "🌐 Веб-интерфейс"

/-- The `"⏰ Напоминания"` menu button text of `bot/bot.py`. -/
def remindersKw : String := "⏰ Напоминания"

/-- Model of aiogram's `CommandStart()` filter on a text message: the first
whitespace-delimited token is `/start`, optionally with a `@botname` mention
(arguments after the command are permitted). -/
def isCommandStart (text : String) : Bool :=
  let tok := text.toList.takeWhile (fun c => !(c.isWhitespace))
  tok == ("/start".toList) || ("/start@".toList).isPrefixOf tok

/-- The aiogram FSM state of the `CreateTask` conversation: `idle` models
"no state set" (after `state.clear()`), the other three are
`CreateTask.title`, `CreateTask.description`, `CreateTask.due_date`. -/
inductive ConvState
  | idle
  | awaitingTitle
  | awaitingDescription
  | awaitingDueDate
deriving DecidableEq

/-- The aiogram FSM data dictionary accumulated with `state.update_data`:
each key is absent until the corresponding handler stores it. -/
structure FSMData where
  title : Option String := none
  description : Option String := none
  due_date : Option (Option PyDateTime) := none
deriving DecidableEq

/-- The per-user conversation state: FSM state plus FSM data
(`state.clear()` resets both). -/
structure ConvEnv where
  state : ConvState
  data : FSMData
deriving DecidableEq

/-- The single reply a conversation handler answers with (only its identity
matters for the embedded properties). -/
inductive Reply
  | menuShown
  | tasksListed
  | webShown
  | remindersShown
  | askTitle
  | askDescription
  | askDueDate
  | invalidFormat
  | cancelled
  | createdOk
  | keyError
  | noReply
deriving DecidableEq

/-- The arguments of one `create_task(...)` call committed by the flow. -/
structure CreateReq where
  title : String
  description : String
  due_date : Option PyDateTime
deriving DecidableEq

/-- `process_title` from `bot/bot.py`: cancel clears everything, any other
text is stored verbatim as the title and the flow advances. -/
def process_title (d : FSMData) (text : String) : ConvEnv × Reply :=
  if text = cancelKw then ({ state := ConvState.idle, data := {} }, Reply.cancelled)
  else ({ state := ConvState.awaitingDescription, data := { d with title := some text } },
        Reply.askDescription)

/-- `process_description` from `bot/bot.py`: cancel clears everything, the
skip keyword maps to the empty description, other text is stored verbatim. -/
def process_description (d : FSMData) (text : String) : ConvEnv × Reply :=
  if text = cancelKw then ({ state := ConvState.idle, data := {} }, Reply.cancelled)
  else
    ({ state := ConvState.awaitingDueDate,
       data := { d with description := some (if text = skipKw then "" else text) } },
     Reply.askDueDate)

/-- `process_due_date` from `bot/bot.py`: cancel clears everything; skip
means no due date; otherwise the text must `strptime` as `%d.%m.%Y %H:%M`,
and on `ValueError` the handler re-shows the format prompt and returns
without touching the state.  On success the naive timestamp is localized with
`timezone.make_aware`, the task is committed via `create_task` with
`data['title']` (a missing key would raise, `keyError`), `data.get
('description', '')` and `data.get('due_date')`, and the state is cleared. -/
def process_due_date (off : Int) (d : FSMData) (text : String) :
    ConvEnv × List CreateReq × Reply :=
  if text = cancelKw then
    ({ state := ConvState.idle, data := {} }, [], Reply.cancelled)
  else
    let parsed : Option (Option PyDateTime) :=
      if text = skipKw then some none
      else
        match strptime_dmy_hm text with
        | some dt => some (some (make_aware off dt))
        | none => none
    match parsed with
    | none => ({ state := ConvState.awaitingDueDate, data := d }, [], Reply.invalidFormat)
    | some due =>
      let d2 : FSMData := { d with due_date := some due }
      match d2.title with
      | none => ({ state := ConvState.awaitingDueDate, data := d2 }, [], Reply.keyError)
      | some ti =>
        ({ state := ConvState.idle, data := {} },
         [{ title := ti, description := d2.description.getD "", due_date := due }],
         Reply.createdOk)

/-- The aiogram-3 dispatch of one inbound text message against the message
handlers of `bot/bot.py`, in registration order with first match winning and
no implicit state filter.  `cmd_start` (line 224), `show_all_tasks` (237),
`show_web_interface` (271) and `create_task_start` (390) carry no state
filter and are registered before the three FSM handlers, so they intercept
their texts also in the middle of a conversation; `cmd_start`,
`show_all_tasks` and `show_web_interface` leave the FSM state and data
untouched, while `create_task_start` runs `state.set_state(CreateTask.title)`
only (the data dictionary survives).  The FSM handlers (401, 421, 444) match
their state.  `show_reminders` (481) and the global cancel handler (514) are
registered after them and therefore only fire when no conversation state is
set; the global cancel handler runs `state.clear()`. -/
def conv_step (off : Int) (env : ConvEnv) (text : String) :
    ConvEnv × List CreateReq × Reply :=
  if isCommandStart text then (env, [], Reply.menuShown)
  else if text = allTasksKw then (env, [], Reply.tasksListed)
  else if text = webKw then (env, [], Reply.webShown)
  else if text = newTaskKw then
    ({ state := ConvState.awaitingTitle, data := env.data }, [], Reply.askTitle)
  else
    match env.state with
    | ConvState.idle =>
      if text = remindersKw then (env, [], Reply.remindersShown)
      else if text = cancelKw then
        ({ state := ConvState.idle, data := {} }, [], Reply.cancelled)
      else (env, [], Reply.noReply)
    | ConvState.awaitingTitle =>
      let r := process_title env.data text
      (r.1, [], r.2)
    | ConvState.awaitingDescription =>
      let r := process_description env.data text
      (r.1, [], r.2)
    | ConvState.awaitingDueDate =>
      process_due_date off env.data text

/-- Feed a sequence of inbound messages through `conv_step`, collecting every
`create_task` call the flow commits. -/
def conv_run (off : Int) (env : ConvEnv) : List String → ConvEnv × List CreateReq
  | [] => (env, [])
  | t :: ts =>
    let s := conv_step off env t
    let r := conv_run off s.1 ts
    (r.1, s.2.1 ++ r.2)

/-! Helper lemmas about `Task.save`, `setOverdue` and store lookups. -/

lemma save_id (off : Int) (t : Task) : (Task.save off t).id = t.id := by
  rcases t with ⟨i, ti, de, st, dd⟩
  cases dd with
  | none => rfl
  | some d =>
    simp only [Task.save]
    split <;> rfl

lemma save_status (off : Int) (t : Task) : (Task.save off t).status = t.status := by
  rcases t with ⟨i, ti, de, st, dd⟩
  cases dd with
  | none => rfl
  | some d =>
    simp only [Task.save]
    split <;> rfl

lemma setOverdue_id (off : Int) (t : Task) : (setOverdue off t).id = t.id := by
  simp [setOverdue, save_id]

lemma setOverdue_status (off : Int) (t : Task) :
    (setOverdue off t).status = Status.overdue := by
  simp [setOverdue, save_status]

lemma setOverdue_idem (off : Int) (t : Task) :
    setOverdue off (setOverdue off t) = setOverdue off t := by
  rcases t with ⟨i, ti, de, st, dd⟩
  cases dd with
  | none => rfl
  | some d =>
    by_cases h : d.tzOffset = none
    · simp [setOverdue, Task.save, make_aware, h]
    · simp [setOverdue, Task.save, make_aware, h]

lemma findCons_pos (p : Task → Bool) (t : Task) (ts : List Task) (h : p t = true) :
    List.find? p (t :: ts) = some t :=
  List.find?_cons_of_pos ts h

lemma findCons_neg (p : Task → Bool) (t : Task) (ts : List Task) (h : p t = false) :
    List.find? p (t :: ts) = List.find? p ts :=
  List.find?_cons_of_neg ts (by simp [h])

lemma findById_map_mark_ne (off : Int) (store : List Task) (i j : Int) (h : i ≠ j) :
    findById (store.map (fun t => if t.id == j then setOverdue off t else t)) i
      = findById store i := by
  induction store with
  | nil => rfl
  | cons t ts ih =>
    rw [List.map_cons]
    simp only [findById]
    by_cases hj : t.id = j
    · have hji : ¬ j = i := fun he => h he.symm
      have hne : ¬ t.id = i := by rw [hj]; exact hji
      rw [findCons_neg (fun u => u.id == i) _ _ (by simp [hj, setOverdue_id, hji]),
          findCons_neg (fun u => u.id == i) _ _ (by simp [hne])]
      exact ih
    · have heq : (if t.id == j then setOverdue off t else t) = t := by simp [hj]
      rw [heq]
      by_cases hi : t.id = i
      · rw [findCons_pos (fun u => u.id == i) _ _ (by simp [hi]),
            findCons_pos (fun u => u.id == i) _ _ (by simp [hi])]
      · rw [findCons_neg (fun u => u.id == i) _ _ (by simp [hi]),
            findCons_neg (fun u => u.id == i) _ _ (by simp [hi])]
        exact ih

lemma findById_map_mark_self (off : Int) (store : List Task) (i : Int) :
    findById (store.map (fun t => if t.id == i then setOverdue off t else t)) i
      = (findById store i).map (setOverdue off) := by
  induction store with
  | nil => rfl
  | cons t ts ih =>
    rw [List.map_cons]
    simp only [findById]
    by_cases hi : t.id = i
    · have heq : (if t.id == i then setOverdue off t else t) = setOverdue off t := by
        simp [hi]
      rw [heq]
      rw [findCons_pos (fun u => u.id == i) _ _ (by simp [setOverdue_id, hi]),
          findCons_pos (fun u => u.id == i) _ _ (by simp [hi])]
      rfl
    · have heq : (if t.id == i then setOverdue off t else t) = t := by simp [hi]
      rw [heq]
      rw [findCons_neg (fun u => u.id == i) _ _ (by simp [hi]),
          findCons_neg (fun u => u.id == i) _ _ (by simp [hi])]
      exact ih

lemma findById_mark_ne (off : Int) (store : List Task) (i j : Int) (h : i ≠ j) :
    findById (mark_task_overdue off store j).1 i = findById store i := by
  unfold mark_task_overdue
  by_cases hany : store.any (fun t => t.id == j) = true
  · simp only [hany, if_pos]
    exact findById_map_mark_ne off store i j h
  · simp [hany]

lemma findById_mark_self (off : Int) (store : List Task) (i : Int) :
    findById (mark_task_overdue off store i).1 i
      = (findById store i).map (setOverdue off) := by
  unfold mark_task_overdue
  by_cases hany : store.any (fun t => t.id == i) = true
  · simp only [hany, if_pos]
    exact findById_map_mark_self off store i
  · have hnone : findById store i = none := by
      rw [findById, List.find?_eq_none]
      intro t ht
      intro hbeq
      apply hany
      rw [List.any_eq_true]
      exact ⟨t, ht, hbeq⟩
    simp [hany, hnone]

lemma findById_of_mem (store : List Task) (t : Task)
    (hnd : (store.map Task.id).Nodup) (ht : t ∈ store) :
    findById store t.id = some t := by
  induction store with
  | nil => cases ht
  | cons s ss ih =>
    rcases List.mem_cons.mp ht with rfl | hmem
    · simp only [findById]
      rw [findCons_pos (fun u => u.id == t.id) _ _ (by simp)]
    · have hnds : (ss.map Task.id).Nodup := by
        rw [List.map_cons, List.nodup_cons] at hnd
        exact hnd.2
      have hne : ¬ s.id = t.id := by
        intro he
        rw [List.map_cons, List.nodup_cons] at hnd
        have : s.id ∈ ss.map Task.id := he ▸ List.mem_map_of_mem Task.id hmem
        exact hnd.1 this
      simp only [findById]
      rw [findCons_neg (fun u => u.id == t.id) _ _ (by simp [hne])]
      exact ih hnds hmem

lemma mem_unique_id (store : List Task) (p t : Task)
    (hnd : (store.map Task.id).Nodup) (hp : p ∈ store) (ht : t ∈ store)
    (hid : p.id = t.id) : p = t := by
  have h1 := findById_of_mem store p hnd hp
  have h2 := findById_of_mem store t hnd ht
  rw [hid] at h1
  rw [h1] at h2
  exact Option.some.inj h2

/-! Helper lemmas about the `check_deadlines` loop. -/

lemma go_chat0 (off : Int) (ok : Int → Bool) (now : PyDateTime) (ps : List Task) :
    ∀ store acc, check_deadlines_go off 0 ok now ps store acc = (store, acc) := by
  induction ps with
  | nil => intro store acc; rfl
  | cons t ts ih =>
    intro store acc
    simp only [check_deadlines_go]
    by_cases h1 : loopSel now t = true
    · simp [h1, ih]
    · simp [h1, ih]

lemma go_fst_untouched (off chatId : Int) (ok : Int → Bool) (now : PyDateTime)
    (ps : List Task) (i : Int) :
    ∀ store acc,
      (∀ p ∈ ps, p.id = i → ¬(loopSel now p = true ∧ chatId ≠ 0 ∧ ok p.id = true)) →
      findById (check_deadlines_go off chatId ok now ps store acc).1 i
        = findById store i := by
  induction ps with
  | nil => intro store acc _; rfl
  | cons t ts ih =>
    intro store acc h
    have hts : ∀ p ∈ ts, p.id = i → ¬(loopSel now p = true ∧ chatId ≠ 0 ∧ ok p.id = true) :=
      fun p hp => h p (List.mem_cons_of_mem t hp)
    simp only [check_deadlines_go]
    by_cases h1 : loopSel now t = true
    · by_cases h2 : chatId ≠ 0
      · by_cases h3 : ok t.id = true
        · have hti : ¬ t.id = i := fun he => h t (List.mem_cons_self t ts) he ⟨h1, h2, h3⟩
          rw [if_pos h1, if_pos h2, if_pos h3]
          rw [ih _ _ hts]
          exact findById_mark_ne off store i t.id (fun he => hti he.symm)
        · rw [if_pos h1, if_pos h2, if_neg h3]
          exact ih _ _ hts
      · rw [if_pos h1, if_neg h2]
        exact ih _ _ hts
    · rw [if_neg h1]
      exact ih _ _ hts

lemma go_fst_marked (off chatId : Int) (ok : Int → Bool) (now : PyDateTime)
    (ps : List Task) (i : Int) :
    ∀ store acc,
      (∃ p ∈ ps, p.id = i ∧ loopSel now p = true ∧ chatId ≠ 0 ∧ ok p.id = true) →
      findById (check_deadlines_go off chatId ok now ps store acc).1 i
        = (findById store i).map (setOverdue off) := by
  induction ps with
  | nil =>
    intro store acc hex
    rcases hex with ⟨p, hp, _⟩
    cases hp
  | cons t ts ih =>
    intro store acc hex
    simp only [check_deadlines_go]
    by_cases hts : ∃ p ∈ ts, p.id = i ∧ loopSel now p = true ∧ chatId ≠ 0 ∧ ok p.id = true
    · by_cases h1 : loopSel now t = true
      · by_cases h2 : chatId ≠ 0
        · by_cases h3 : ok t.id = true
          · rw [if_pos h1, if_pos h2, if_pos h3, ih _ _ hts]
            by_cases hti : t.id = i
            · rw [hti, findById_mark_self]
              cases findById store i with
              | none => rfl
              | some u => simp [setOverdue_idem]
            · rw [findById_mark_ne off store i t.id (fun he => hti he.symm)]
          · rw [if_pos h1, if_pos h2, if_neg h3]
            exact ih _ _ hts
        · rw [if_pos h1, if_neg h2]
          exact ih _ _ hts
      · rw [if_neg h1]
        exact ih _ _ hts
    · rcases hex with ⟨p, hp, hpi, hl, hch, hok⟩
      rcases List.mem_cons.mp hp with rfl | hpm
      · rw [if_pos hl, if_pos hch, if_pos hok]
        have hcl : ∀ q ∈ ts, q.id = i →
            ¬(loopSel now q = true ∧ chatId ≠ 0 ∧ ok q.id = true) := by
          intro q hq hqi hcon
          exact hts ⟨q, hq, hqi, hcon.1, hcon.2.1, hcon.2.2⟩
        rw [go_fst_untouched off chatId ok now ts i _ _ hcl]
        rw [hpi]
        exact findById_mark_self off store i
      · exact absurd ⟨p, hpm, hpi, hl, hch, hok⟩ hts

lemma go_snd_sound (off chatId : Int) (ok : Int → Bool) (now : PyDateTime)
    (ps : List Task) (i : Int) :
    ∀ store acc, i ∈ (check_deadlines_go off chatId ok now ps store acc).2 →
      i ∈ acc ∨ ∃ p ∈ ps, p.id = i ∧ loopSel now p = true ∧ chatId ≠ 0 := by
  induction ps with
  | nil =>
    intro store acc h
    exact Or.inl h
  | cons t ts ih =>
    intro store acc h
    have hlift : i ∈ acc ++ [t.id] ∨
        (∃ p ∈ ts, p.id = i ∧ loopSel now p = true ∧ chatId ≠ 0) →
        loopSel now t = true → chatId ≠ 0 →
        i ∈ acc ∨ ∃ p ∈ t :: ts, p.id = i ∧ loopSel now p = true ∧ chatId ≠ 0 := by
      intro hd h1 h2
      rcases hd with hacc | ⟨p, hp, rest⟩
      · rcases List.mem_append.mp hacc with ha | hb
        · exact Or.inl ha
        · have hi : i = t.id := by simpa using hb
          exact Or.inr ⟨t, List.mem_cons_self t ts, hi.symm, h1, h2⟩
      · exact Or.inr ⟨p, List.mem_cons_of_mem t hp, rest⟩
    simp only [check_deadlines_go] at h
    by_cases h1 : loopSel now t = true
    · by_cases h2 : chatId ≠ 0
      · by_cases h3 : ok t.id = true
        · rw [if_pos h1, if_pos h2, if_pos h3] at h
          exact hlift (ih _ _ h) h1 h2
        · rw [if_pos h1, if_pos h2, if_neg h3] at h
          exact hlift (ih _ _ h) h1 h2
      · rw [if_pos h1, if_neg h2] at h
        rcases ih _ _ h with hacc | ⟨p, hp, rest⟩
        · exact Or.inl hacc
        · exact Or.inr ⟨p, List.mem_cons_of_mem t hp, rest⟩
    · rw [if_neg h1] at h
      rcases ih _ _ h with hacc | ⟨p, hp, rest⟩
      · exact Or.inl hacc
      · exact Or.inr ⟨p, List.mem_cons_of_mem t hp, rest⟩

lemma go_snd_mono (off chatId : Int) (ok : Int → Bool) (now : PyDateTime)
    (ps : List Task) :
    ∀ store acc i, i ∈ acc →
      i ∈ (check_deadlines_go off chatId ok now ps store acc).2 := by
  induction ps with
  | nil => intro store acc i h; exact h
  | cons t ts ih =>
    intro store acc i h
    simp only [check_deadlines_go]
    by_cases h1 : loopSel now t = true
    · by_cases h2 : chatId ≠ 0
      · by_cases h3 : ok t.id = true
        · rw [if_pos h1, if_pos h2, if_pos h3]
          exact ih _ _ i (List.mem_append_left _ h)
        · rw [if_pos h1, if_pos h2, if_neg h3]
          exact ih _ _ i (List.mem_append_left _ h)
      · rw [if_pos h1, if_neg h2]
        exact ih _ _ i h
    · rw [if_neg h1]
      exact ih _ _ i h

lemma go_snd_complete (off chatId : Int) (ok : Int → Bool) (now : PyDateTime)
    (ps : List Task) (hch : chatId ≠ 0) :
    ∀ store acc p, p ∈ ps → loopSel now p = true →
      p.id ∈ (check_deadlines_go off chatId ok now ps store acc).2 := by
  induction ps with
  | nil => intro _ _ p hp _; cases hp
  | cons t ts ih =>
    intro store acc p hp hl
    simp only [check_deadlines_go]
    rcases List.mem_cons.mp hp with rfl | hpm
    · rw [if_pos hl, if_pos hch]
      by_cases h3 : ok p.id = true
      · rw [if_pos h3]
        exact go_snd_mono off chatId ok now ts _ _ p.id
          (List.mem_append_right _ (by simp))
      · rw [if_neg h3]
        exact go_snd_mono off chatId ok now ts _ _ p.id
          (List.mem_append_right _ (by simp))
    · by_cases h1 : loopSel now t = true
      · rw [if_pos h1, if_pos hch]
        by_cases h3 : ok t.id = true
        · rw [if_pos h3]
          exact ih _ _ p hpm hl
        · rw [if_neg h3]
          exact ih _ _ p hpm hl
      · rw [if_neg h1]
        exact ih _ _ p hpm hl

/-! Concrete sample data used by the witnesses of the claim theorems. -/

/-- An aware timestamp in the past of `dtNow`. -/
def dtPast : PyDateTime := ⟨2026, 1, 1, 12, 0, some 0⟩

/-- An aware "current time" for sweep instances. -/
def dtNow : PyDateTime := ⟨2026, 1, 2, 12, 0, some 0⟩

/-- A naive timestamp (no timezone attached). -/
def dtNaive : PyDateTime := ⟨2026, 1, 25, 14, 30, none⟩

/-- A pending task whose deadline has passed. -/
def taskNewW : Task := ⟨1, "report", "", Status.new, some dtPast⟩

/-- A completed task whose deadline has passed. -/
def taskDoneW : Task := ⟨2, "archived", "", Status.done, some dtPast⟩

/-- An already-overdue task. -/
def taskOverdueW : Task := ⟨3, "late", "", Status.overdue, some dtPast⟩

/-- A task with a naive due date, as stored before `Task.save` runs. -/
def taskNaiveW : Task := ⟨4, "trip", "", Status.new, some dtNaive⟩

/-- A second pending task, whose notification send will fail in the C2
witness instance. -/
def taskFail5W : Task := ⟨5, "call", "", Status.new, some dtPast⟩

/-! The claim theorems. -/

/-- C3: `cycle_status` maps `new → in_progress`, `in_progress → done` and
`done → new`; on every status in `{new, in_progress, done}` three
applications return to the start and no number of applications ever yields
`overdue`; `task_toggle` changes a task's status exactly by this map. -/
theorem c3_cycle_status_period_three :
    cycle_status Status.new = Status.in_progress ∧
    cycle_status Status.in_progress = Status.done ∧
    cycle_status Status.done = Status.new ∧
    (∀ s : Status, (s = Status.new ∨ s = Status.in_progress ∨ s = Status.done) →
      cycle_status^[3] s = s ∧ ∀ m : Nat, cycle_status^[m] s ≠ Status.overdue) ∧
    (∀ (off : Int) (t : Task), (task_toggle off t).status = cycle_status t.status) ∧
    (∀ (off : Int) (t : Task),
      (t.status = Status.new ∨ t.status = Status.in_progress ∨ t.status = Status.done) →
      ((task_toggle off)^[3] t).status = t.status) := by
  refine ⟨rfl, rfl, rfl, ?_, ?_, ?_⟩
  · intro s hs
    have hnever : ∀ u : Status, cycle_status u ≠ Status.overdue := by
      intro u
      cases u <;> decide
    constructor
    · rcases hs with rfl | rfl | rfl <;> rfl
    · intro m
      cases m with
      | zero => rcases hs with rfl | rfl | rfl <;> decide
      | succ k =>
        rw [Function.iterate_succ_apply']
        exact hnever _
  · intro off t
    simp [task_toggle, save_status]
  · intro off t hts
    have h1 : ∀ u : Task, (task_toggle off u).status = cycle_status u.status :=
      fun u => by simp [task_toggle, save_status]
    show (task_toggle off (task_toggle off (task_toggle off t))).status = t.status
    rw [h1, h1, h1]
    rcases hts with h | h | h <;> rw [h] <;> rfl

/-- Witness for C3 at the concrete status `new`. -/
theorem c3_cycle_status_period_three_witness :
    cycle_status^[3] Status.new = Status.new ∧
    cycle_status^[4] Status.new ≠ Status.overdue :=
  ⟨(c3_cycle_status_period_three.2.2.2.1 Status.new (Or.inl rfl)).1,
   (c3_cycle_status_period_three.2.2.2.1 Status.new (Or.inl rfl)).2 4⟩

/-- C4 (code bug): a delete-button callback whose suffix after the
`delete_` marker is not numeric crashes the handler — the unguarded
`int(callback.data.replace("delete_", ""))` raises `ValueError` before any
lookup — instead of the graceful "not found" outcome the spec requires; a
numeric id that matches no task does produce "not found". -/
theorem c4_nonnumeric_suffix_crashes :
    (delete_task_callback [] "delete_abc").1 = CallbackOutcome.crash ∧
    (delete_task_callback [] "delete_7").1 = CallbackOutcome.notFound := by
  constructor <;> rfl

/-- C5: a naive due date is normalized by `Task.save` — the single
persistence point every write path funnels through — into the configured
local timezone with its wall-clock fields untouched, and a create/read
round trip yields exactly that aware timestamp. -/
theorem c5_naive_due_date_normalized (off : Int) (t : Task) (d : PyDateTime)
    (hdue : t.due_date = some d) (hn : d.tzOffset = none) :
    (Task.save off t).due_date = some (make_aware off d) ∧
    (make_aware off d).tzOffset = some off ∧
    (make_aware off d).year = d.year ∧ (make_aware off d).month = d.month ∧
    (make_aware off d).day = d.day ∧ (make_aware off d).hour = d.hour ∧
    (make_aware off d).minute = d.minute ∧
    ∀ (store : List Task) (i : Int) (ti de : String),
      findById (store_create off store i ti de (some d)) i
        = some (create_task off i ti de (some d)) ∧
      (create_task off i ti de (some d)).due_date = some (make_aware off d) := by
  refine ⟨?_, rfl, rfl, rfl, rfl, rfl, rfl, ?_⟩
  · rcases t with ⟨ti, tt, td, ts, dd⟩
    simp only at hdue
    subst hdue
    simp [Task.save, hn]
  · intro store i ti de
    constructor
    · simp only [store_create, findById]
      rw [findCons_pos (fun u => u.id == i) _ _ (by simp [create_task, save_id])]
    · simp [create_task, Task.save, hn]

/-- Witness for C5: the sample naive timestamp is persisted as the aware
timestamp in the zone at UTC+3 (180 minutes). -/
theorem c5_naive_due_date_normalized_witness :
    (Task.save 180 taskNaiveW).due_date = some (make_aware 180 dtNaive) :=
  (c5_naive_due_date_normalized 180 taskNaiveW dtNaive rfl rfl).1

/-- C9: with the notification chat id absent from the environment (parsed as
0) or zero, a sweep tick attempts no send and returns the store unchanged,
over any number of ticks. -/
theorem c9_zero_chat_id_inert (off : Int) (ok : Int → Bool) (now : PyDateTime)
    (store : List Task) :
    chatIdFromEnv none = some 0 ∧
    check_deadlines off 0 ok now store = (store, []) ∧
    ∀ n : Nat, (fun st => (check_deadlines off 0 ok now st).1)^[n] store = store := by
  refine ⟨rfl, ?_, ?_⟩
  · rw [check_deadlines, go_chat0]
  · intro n
    induction n with
    | zero => rfl
    | succ k ih =>
      rw [Function.iterate_succ_apply]
      have hstep : (check_deadlines off 0 ok now store).1 = store := by
        rw [check_deadlines, go_chat0]
      rw [hstep]
      exact ih

/-- C10: the user-driven toggle maps `overdue` back to `new` (the `else`
branch of `task_toggle`), while the sweep itself leaves an overdue task
completely unchanged. -/
theorem c10_toggle_reverses_overdue (off chatId : Int) (ok : Int → Bool)
    (now : PyDateTime) (store : List Task) (t : Task)
    (hnd : (store.map Task.id).Nodup) (ht : t ∈ store)
    (hov : t.status = Status.overdue) :
    cycle_status Status.overdue = Status.new ∧
    (task_toggle off t).status = Status.new ∧
    findById (check_deadlines off chatId ok now store).1 t.id = some t := by
  refine ⟨rfl, ?_, ?_⟩
  · simp [task_toggle, save_status, hov, cycle_status]
  · have hcl : ∀ p ∈ get_pending_tasks_with_deadline store, p.id = t.id →
        ¬(loopSel now p = true ∧ chatId ≠ 0 ∧ ok p.id = true) := by
      intro p hp hpi hcon
      have hpstore : p ∈ store := (List.mem_filter.mp hp).1
      have hpt : p = t := mem_unique_id store p t hnd hpstore ht hpi
      have hflse : loopSel now t = false := by
        simp [loopSel, hov]
      have hl := hcon.1
      rw [hpt, hflse] at hl
      exact Bool.false_ne_true hl
    rw [check_deadlines, go_fst_untouched off chatId ok now _ t.id store [] hcl]
    exact findById_of_mem store t hnd ht

/-- Witness for C9: one inert tick on a concrete store. -/
theorem c9_zero_chat_id_inert_witness :
    check_deadlines 0 0 (fun _ => true) dtNow [taskNewW] = ([taskNewW], []) :=
  (c9_zero_chat_id_inert 0 (fun _ => true) dtNow [taskNewW]).2.1

/-- C1: the sweep selects a task exactly when its due date is set, its due
date is at most the current time, and its status is neither `done` nor
`overdue`; for a task it does not select, no notification send is ever
attempted in the tick. -/
theorem c1_selection_predicate (now : PyDateTime) (t : Task)
    (off chatId : Int) (ok : Int → Bool) (store : List Task)
    (hnd : (store.map Task.id).Nodup) (ht : t ∈ store) :
    (sweepSelects now t = true ↔
      ((∃ d, t.due_date = some d ∧ d.le now = true) ∧
        t.status ≠ Status.done ∧ t.status ≠ Status.overdue)) ∧
    (sweepSelects now t = false →
      t.id ∉ (check_deadlines off chatId ok now store).2) := by
  constructor
  · rcases t with ⟨i, ti, de, st, dd⟩
    cases dd with
    | none =>
      simp [sweepSelects, pendingPred, loopSel, dueLeNow]
    | some d =>
      cases st <;> simp [sweepSelects, pendingPred, loopSel, dueLeNow]
  · intro hns hmem
    rw [check_deadlines] at hmem
    rcases go_snd_sound off chatId ok now _ t.id store [] hmem with
      hacc | ⟨p, hp, hpi, hl, hch⟩
    · cases hacc
    · have hpstore : p ∈ store := (List.mem_filter.mp hp).1
      have hpp : pendingPred p = true := (List.mem_filter.mp hp).2
      have hpt : p = t := mem_unique_id store p t hnd hpstore ht hpi
      rw [hpt] at hl hpp
      have hsel : sweepSelects now t = true := by
        rw [sweepSelects, hpp, hl]
        rfl
      rw [hns] at hsel
      exact Bool.false_ne_true hsel

/-- Witness for C1: a completed task with a past deadline never gets a send
attempt. -/
theorem c1_selection_predicate_witness :
    taskDoneW.id ∉ (check_deadlines 0 1 (fun _ => true) dtNow [taskDoneW]).2 :=
  (c1_selection_predicate dtNow taskDoneW 0 1 (fun _ => true) [taskDoneW]
    (by decide) (by decide)).2 (by decide)

/-- C2: with a configured chat id, every task the sweep selects gets a send
attempt, a successful send transitions exactly that task to `overdue`, and a
failed send leaves it exactly as it was; the outcome of each selected task
depends only on its own send result, so one failure never blocks the rest of
the tick. -/
theorem c2_per_task_send_outcome (off chatId : Int) (ok : Int → Bool)
    (now : PyDateTime) (store : List Task) (t : Task)
    (hch : chatId ≠ 0) (hnd : (store.map Task.id).Nodup)
    (ht : t ∈ store) (hsel : sweepSelects now t = true) :
    t.id ∈ (check_deadlines off chatId ok now store).2 ∧
    findById (check_deadlines off chatId ok now store).1 t.id
      = some (if ok t.id then setOverdue off t else t) ∧
    (setOverdue off t).status = Status.overdue := by
  have hparts := hsel
  rw [sweepSelects, Bool.and_eq_true] at hparts
  have hpend : pendingPred t = true := hparts.1
  have hloop : loopSel now t = true := hparts.2
  have htp : t ∈ get_pending_tasks_with_deadline store :=
    List.mem_filter.mpr ⟨ht, hpend⟩
  refine ⟨?_, ?_, setOverdue_status off t⟩
  · rw [check_deadlines]
    exact go_snd_complete off chatId ok now _ hch store [] t htp hloop
  · rw [check_deadlines]
    by_cases hok : ok t.id = true
    · rw [if_pos hok,
          go_fst_marked off chatId ok now _ t.id store [] ⟨t, htp, rfl, hloop, hch, hok⟩,
          findById_of_mem store t hnd ht]
      rfl
    · have hcl : ∀ p ∈ get_pending_tasks_with_deadline store, p.id = t.id →
          ¬(loopSel now p = true ∧ chatId ≠ 0 ∧ ok p.id = true) := by
        intro p hp hpi hcon
        have hpstore : p ∈ store := (List.mem_filter.mp hp).1
        have hpt : p = t := mem_unique_id store p t hnd hpstore ht hpi
        rw [hpt] at hcon
        exact hok hcon.2.2
      rw [if_neg hok,
          go_fst_untouched off chatId ok now _ t.id store [] hcl]
      exact findById_of_mem store t hnd ht

/-- Witness for C2: in a tick over two pending tasks where only the send for
task 1 succeeds, task 1 ends `overdue`, task 5 is untouched, and both got a
send attempt. -/
theorem c2_per_task_send_outcome_witness :
    (taskNewW.id ∈ (check_deadlines 0 1 (fun i => i == 1) dtNow
        [taskNewW, taskFail5W]).2 ∧
      findById (check_deadlines 0 1 (fun i => i == 1) dtNow
        [taskNewW, taskFail5W]).1 taskNewW.id = some (setOverdue 0 taskNewW)) ∧
    findById (check_deadlines 0 1 (fun i => i == 1) dtNow
        [taskNewW, taskFail5W]).1 taskFail5W.id = some taskFail5W :=
  ⟨⟨(c2_per_task_send_outcome 0 1 (fun i => i == 1) dtNow [taskNewW, taskFail5W]
      taskNewW (by decide) (by decide) (by decide) (by decide)).1,
    (c2_per_task_send_outcome 0 1 (fun i => i == 1) dtNow [taskNewW, taskFail5W]
      taskNewW (by decide) (by decide) (by decide) (by decide)).2.1⟩,
   (c2_per_task_send_outcome 0 1 (fun i => i == 1) dtNow [taskNewW, taskFail5W]
      taskFail5W (by decide) (by decide) (by decide) (by decide)).2.1⟩

/-- Counterexample for C6 as originally stated: with the title text
`"➕ Новая задача"` — which is not the cancel keyword — the earlier-registered
`create_task_start` handler intercepts the message before `process_title`
runs, so the sequence title-skip-skip commits no task at all and leaves the
conversation in the due-date state instead of clearing it. -/
theorem c6_title_skip_skip_counterexample :
    newTaskKw ≠ cancelKw ∧
    (conv_run 0 { state := ConvState.awaitingTitle, data := {} }
        [newTaskKw, skipKw, skipKw]).2 = [] ∧
    (conv_run 0 { state := ConvState.awaitingTitle, data := {} }
        [newTaskKw, skipKw, skipKw]).1.state = ConvState.awaitingDueDate := by
  refine ⟨by decide, ?_, ?_⟩ <;> rfl

/-- C6 (amended): a conversation fed a title, then skip, then skip commits
exactly one task with that title verbatim, an empty description and no due
date, and clears the conversation state — provided the title text is neither
the cancel keyword nor one of the texts captured by the handlers registered
before the FSM handlers (the `/start` command and the three menu buttons);
the committed arguments create a task row with status `new`. -/
theorem c6_title_skip_skip (off : Int) (ti : String) (hti : ti ≠ cancelKw)
    (hcs : isCommandStart ti = false) (hat : ti ≠ allTasksKw)
    (hweb : ti ≠ webKw) (hnt : ti ≠ newTaskKw) :
    conv_run off { state := ConvState.awaitingTitle, data := {} } [ti, skipKw, skipKw]
      = ({ state := ConvState.idle, data := {} },
         [{ title := ti, description := "", due_date := none }]) ∧
    ∀ i : Int, create_task off i ti "" none
      = { id := i, title := ti, description := "", status := Status.new,
          due_date := none } := by
  constructor
  · have e1 : conv_step off { state := ConvState.awaitingTitle, data := {} } ti
        = ({ state := ConvState.awaitingDescription, data := { title := some ti } },
           [], Reply.askDescription) := by
      simp only [conv_step]
      rw [if_neg (by simp [hcs] : ¬ (isCommandStart ti = true)),
          if_neg hat, if_neg hweb, if_neg hnt]
      simp only [process_title]
      rw [if_neg hti]
    have e2 : conv_step off
        { state := ConvState.awaitingDescription, data := { title := some ti } } skipKw
        = ({ state := ConvState.awaitingDueDate,
             data := { title := some ti, description := some "" } },
           [], Reply.askDueDate) := by
      simp only [conv_step]
      rw [if_neg (by decide : ¬ (isCommandStart skipKw = true)),
          if_neg (by decide : ¬ (skipKw = allTasksKw)),
          if_neg (by decide : ¬ (skipKw = webKw)),
          if_neg (by decide : ¬ (skipKw = newTaskKw))]
      simp only [process_description]
      rw [if_neg (by decide : ¬(skipKw = cancelKw))]
      simp
    have e3 : conv_step off
        { state := ConvState.awaitingDueDate,
          data := { title := some ti, description := some "" } } skipKw
        = ({ state := ConvState.idle, data := {} },
           [{ title := ti, description := "", due_date := none }],
           Reply.createdOk) := by
      simp only [conv_step]
      rw [if_neg (by decide : ¬ (isCommandStart skipKw = true)),
          if_neg (by decide : ¬ (skipKw = allTasksKw)),
          if_neg (by decide : ¬ (skipKw = webKw)),
          if_neg (by decide : ¬ (skipKw = newTaskKw))]
      simp only [process_due_date]
      rw [if_neg (by decide : ¬(skipKw = cancelKw))]
      simp
    simp only [conv_run, e1, e2, e3, List.nil_append, List.append_nil]
  · intro i
    rfl

/-- Witness for C6 at the spec's concrete input sequence. -/
theorem c6_title_skip_skip_witness :
    conv_run 0 { state := ConvState.awaitingTitle, data := {} }
        ["Buy milk", skipKw, skipKw]
      = ({ state := ConvState.idle, data := {} },
         [{ title := "Buy milk", description := "", due_date := none }]) :=
  (c6_title_skip_skip 0 "Buy milk" (by decide) (by decide) (by decide)
    (by decide) (by decide)).1

/-- Counterexample for C7 as originally stated: the input `"➕ Новая задача"`
in the due-date state is neither cancel nor skip and does not parse as a
date, yet the earlier-registered `create_task_start` handler intercepts it
and moves the state back to the title prompt instead of leaving it unchanged
and re-showing the format error. -/
theorem c7_invalid_due_date_rejected_counterexample :
    newTaskKw ≠ cancelKw ∧ newTaskKw ≠ skipKw ∧
    strptime_dmy_hm newTaskKw = none ∧
    conv_step 0
        { state := ConvState.awaitingDueDate,
          data := { title := some "Buy milk", description := some "" } }
        newTaskKw
      = ({ state := ConvState.awaitingTitle,
           data := { title := some "Buy milk", description := some "" } }, [],
         Reply.askTitle) := by
  refine ⟨by decide, by decide, ?_, ?_⟩ <;> rfl

/-- C7 (amended): any due-date input that is neither cancel nor skip, is not
captured by the handlers registered before the FSM handlers (the `/start`
command and the three menu buttons), and fails `strptime` (for example an
invalid calendar date) is rejected: the state stays `AwaitingDueDate` with
its accumulated data unchanged, the format error prompt is shown, and no
task is created. -/
theorem c7_invalid_due_date_rejected (off : Int) (d : FSMData) (text : String)
    (hc : text ≠ cancelKw) (hs : text ≠ skipKw)
    (hcs : isCommandStart text = false) (hat : text ≠ allTasksKw)
    (hweb : text ≠ webKw) (hnt : text ≠ newTaskKw)
    (hp : strptime_dmy_hm text = none) :
    conv_step off { state := ConvState.awaitingDueDate, data := d } text
      = ({ state := ConvState.awaitingDueDate, data := d }, [],
         Reply.invalidFormat) := by
  simp only [conv_step]
  rw [if_neg (by simp [hcs] : ¬ (isCommandStart text = true)),
      if_neg hat, if_neg hweb, if_neg hnt]
  simp only [process_due_date]
  rw [if_neg hc, if_neg hs, hp]

/-- Witness for C7 at the spec's concrete invalid calendar date. -/
theorem c7_invalid_due_date_rejected_witness :
    conv_step 0
        { state := ConvState.awaitingDueDate,
          data := { title := some "Buy milk", description := some "" } }
        "31.02.2026 10:00"
      = ({ state := ConvState.awaitingDueDate,
           data := { title := some "Buy milk", description := some "" } }, [],
         Reply.invalidFormat) :=
  c7_invalid_due_date_rejected 0
    { title := some "Buy milk", description := some "" }
    "31.02.2026 10:00" (by decide) (by decide) (by decide) (by decide)
    (by decide) (by decide) (by decide)

/-- C8: the cancel keyword in any of the three conversation states aborts
the conversation and discards all accumulated data without creating a task,
and a new conversation then starts from a clean slate. -/
theorem c8_cancel_clears (off : Int) (env : ConvEnv)
    (h : env.state = ConvState.awaitingTitle
      ∨ env.state = ConvState.awaitingDescription
      ∨ env.state = ConvState.awaitingDueDate) :
    conv_step off env cancelKw
      = ({ state := ConvState.idle, data := {} }, [], Reply.cancelled) ∧
    conv_step off { state := ConvState.idle, data := {} } newTaskKw
      = ({ state := ConvState.awaitingTitle, data := {} }, [], Reply.askTitle) := by
  constructor
  · rcases h with h | h | h
    · simp only [conv_step]
      rw [if_neg (by decide : ¬ (isCommandStart cancelKw = true)),
          if_neg (by decide : ¬ (cancelKw = allTasksKw)),
          if_neg (by decide : ¬ (cancelKw = webKw)),
          if_neg (by decide : ¬ (cancelKw = newTaskKw)), h]
      simp [process_title]
    · simp only [conv_step]
      rw [if_neg (by decide : ¬ (isCommandStart cancelKw = true)),
          if_neg (by decide : ¬ (cancelKw = allTasksKw)),
          if_neg (by decide : ¬ (cancelKw = webKw)),
          if_neg (by decide : ¬ (cancelKw = newTaskKw)), h]
      simp [process_description]
    · simp only [conv_step]
      rw [if_neg (by decide : ¬ (isCommandStart cancelKw = true)),
          if_neg (by decide : ¬ (cancelKw = allTasksKw)),
          if_neg (by decide : ¬ (cancelKw = webKw)),
          if_neg (by decide : ¬ (cancelKw = newTaskKw)), h]
      simp [process_due_date]
  · simp only [conv_step]
    rw [if_neg (by decide : ¬ (isCommandStart newTaskKw = true)),
        if_neg (by decide : ¬ (newTaskKw = allTasksKw)),
        if_neg (by decide : ¬ (newTaskKw = webKw))]
    simp

/-- Witness for C8 in the `AwaitingDueDate` state with accumulated data. -/
theorem c8_cancel_clears_witness :
    conv_step 0
        { state := ConvState.awaitingDueDate,
          data := { title := some "Buy milk", description := some "x" } }
        cancelKw
      = ({ state := ConvState.idle, data := {} }, [], Reply.cancelled) :=
  (c8_cancel_clears 0
    { state := ConvState.awaitingDueDate,
      data := { title := some "Buy milk", description := some "x" } }
    (Or.inr (Or.inr rfl))).1

/-- Witness for C10: a concrete overdue task survives a tick untouched. -/
theorem c10_toggle_reverses_overdue_witness :
    findById (check_deadlines 0 1 (fun _ => true) dtNow [taskOverdueW]).1
        taskOverdueW.id = some taskOverdueW :=
  (c10_toggle_reverses_overdue 0 1 (fun _ => true) dtNow [taskOverdueW]
    taskOverdueW (by decide) (by decide) (by decide)).2.2

end Planer
